import Mathlib

/-!
# Verification of the tproxy protocol core

A shallow embedding of the protocol-aware subsystems of the `tproxy`
transparent proxy (TLS ClientHello codec, HTTP/2 frame codec and flow
control, challenge/redirect tracker, HTTP/1 request rewrite, timing
jitter), translated from the Rust sources, together with theorems that
settle the specification claims against those definitions.

Bytes are modelled as `List Nat` (each element a byte value); machine
integers are `Nat` with explicit `% 2^w` where the source masks or
truncates.  Fallible Rust functions returning `Result` become `Except`;
Rust code paths that would panic (out-of-bounds slice indexing) are
modelled by a distinguished `panic` outcome.
-/

namespace TProxy

/-- Big-endian 16-bit value from two bytes. -/
def u16be (b0 b1 : Nat) : Nat := b0 * 256 + b1

/-- Big-endian byte pair of a 16-bit value (as written by `put_u16` /
`u16::to_be_bytes`, truncating to 16 bits). -/
def u16bytes (n : Nat) : List Nat := [n / 256 % 256, n % 256]

/-- Low three bytes of a 32-bit value, big-endian
(`u32::to_be_bytes()[1..4]`). -/
def u24bytes (n : Nat) : List Nat := [n / 65536 % 256, n / 256 % 256, n % 256]

/-- Big-endian four bytes of a 32-bit value (`u32::to_be_bytes`). -/
def u32bytes (n : Nat) : List Nat :=
  [n / 16777216 % 256, n / 65536 % 256, n / 256 % 256, n % 256]

/-! ## HTTP/2 frame codec (src/http2.rs, `Http2Frame`) -/

/-- `Http2Frame` from src/http2.rs: `length: u32` (on the wire a u24),
`frame_type: u8`, `flags: u8`, `stream_id: u32`, `payload: Vec<u8>`. -/
structure Http2Frame where
  length : Nat
  frame_type : Nat
  flags : Nat
  stream_id : Nat
  payload : List Nat
  deriving Repr, DecidableEq

/-- `Http2Frame::parse` (src/http2.rs lines 40-63): reject inputs shorter
than 9 bytes (the nine-cons pattern is exactly `data.len() >= 9`); read
the u24 length `from_be_bytes([0, b0, b1, b2])`, type, flags, and the
stream id with its high bit masked (`& 0x7FFFFFFF` = `% 2^31` on a 32-bit
value); take the payload only when `9 + length <= data.len()`, else leave
it empty. -/
def Http2Frame.parse (data : List Nat) : Except String Http2Frame :=
  match data with
  | b0 :: b1 :: b2 :: b3 :: b4 :: b5 :: b6 :: b7 :: b8 :: rest =>
    let length := b0 * 65536 + b1 * 256 + b2
    let frame_type := b3
    let flags := b4
    let stream_id := (b5 * 16777216 + b6 * 65536 + b7 * 256 + b8) % 2 ^ 31
    let payload := if length ≤ rest.length then rest.take length else []
    .ok ⟨length, frame_type, flags, stream_id, payload⟩
  | _ => .error "Frame too short"

/-- `Http2Frame::serialize` (src/http2.rs lines 65-75): 3-byte big-endian
length (`to_be_bytes()[1..4]`), type byte, flags byte, 4-byte big-endian
stream id written as-is, then the payload. -/
def Http2Frame.serialize (f : Http2Frame) : List Nat :=
  u24bytes f.length ++ [f.frame_type] ++ [f.flags] ++ u32bytes f.stream_id ++ f.payload

/-- `MAX_FRAME_SIZE` (src/http2_advanced.rs). -/
def MAX_FRAME_SIZE : Nat := 16384

/-! ## Flow control (src/http2_advanced.rs, `StreamState` / `FlowController`)

`HashMap<u32, StreamState>` is modelled as an association list with the
`HashMap` access semantics (`get_mut` modifies the entry with the key,
others untouched; `insert` replaces).  The `Instant` fields
(`last_update`, `last_update_time`) carry no claim-relevant information
and are omitted; `u32` saturating addition is `min (a + b) (2^32 - 1)`. -/

/-- u32 `saturating_add`. -/
def satAdd32 (a b : Nat) : Nat := min (a + b) (2 ^ 32 - 1)

/-- `StreamPriority` (src/http2_advanced.rs). -/
structure StreamPriority where
  depends_on : Nat
  weight : Nat
  exclusive : Bool
  deriving Repr, DecidableEq

/-- `StreamPriority::default`. -/
def StreamPriority.default : StreamPriority := ⟨0, 16, false⟩

/-- `StreamState` (src/http2_advanced.rs): per-stream flow-control record.
`window_size` is a u32, the byte counters are u64. -/
structure StreamState where
  id : Nat
  window_size : Nat
  bytes_sent : Nat
  bytes_received : Nat
  priority : StreamPriority
  deriving Repr, DecidableEq

/-- `StreamState::new`. -/
def StreamState.new (id initial_window : Nat) : StreamState :=
  ⟨id, initial_window, 0, 0, StreamPriority.default⟩

/-- `StreamState::consume_window` (src/http2_advanced.rs lines 111-119):
if the stream window covers `bytes`, subtract and count them as sent and
report `true`; otherwise leave the state alone and report `false`. -/
def StreamState.consume_window (s : StreamState) (bytes : Nat) :
    StreamState × Bool :=
  if bytes ≤ s.window_size then
    ({ s with window_size := s.window_size - bytes,
              bytes_sent := s.bytes_sent + bytes }, true)
  else
    (s, false)

/-- `StreamState::add_window`: u32 saturating add onto the window. -/
def StreamState.add_window (s : StreamState) (bytes : Nat) : StreamState :=
  { s with window_size := satAdd32 s.window_size bytes }

/-- `FlowController` (src/http2_advanced.rs): one connection window plus a
map of per-stream states and a queue of pending window updates. -/
structure FlowController where
  connection_window : Nat
  streams : List (Nat × StreamState)
  window_updates : List (Nat × Nat)
  deriving Repr, DecidableEq

/-- `HashMap::get` on the association-list model of a hash map. -/
def alookup {κ α : Type} [DecidableEq κ] (l : List (κ × α)) (k : κ) : Option α :=
  (l.find? (fun e => e.1 = k)).map (fun e => e.2)

/-- `HashMap::get_mut` followed by an in-place update: rewrite the entry
with key `k` through `f`, leave every other entry alone. -/
def amodify {κ α : Type} [DecidableEq κ] (l : List (κ × α)) (k : κ)
    (f : α → α) : List (κ × α) :=
  l.map (fun e => if e.1 = k then (e.1, f e.2) else e)

/-- `HashMap::insert` on the association-list model: replace a present
key's entry, else add the entry. -/
def ainsert {κ α : Type} [DecidableEq κ] (l : List (κ × α)) (k : κ) (v : α) :
    List (κ × α) :=
  if (alookup l k).isSome then amodify l k (fun _ => v) else (k, v) :: l

/-- `HashMap::get` specialised to the stream map. -/
def lookupStream (l : List (Nat × StreamState)) (k : Nat) : Option StreamState :=
  alookup l k

/-- `HashMap::get_mut` + update specialised to the stream map. -/
def modifyStream (l : List (Nat × StreamState)) (k : Nat)
    (f : StreamState → StreamState) : List (Nat × StreamState) :=
  amodify l k f

/-- `FlowController::consume_window` (src/http2_advanced.rs lines 161-174):
refuse when the connection window is short; otherwise, when the stream
exists and its own `consume_window` succeeds, also subtract from the
connection window and report `true`; in every other case leave the state
alone and report `false`.  (The Rust function returns `Result` but never
errs, so the `Ok` wrapper is dropped.) -/
def FlowController.consume_window (fc : FlowController) (stream_id bytes : Nat) :
    FlowController × Bool :=
  if fc.connection_window < bytes then
    (fc, false)
  else
    match lookupStream fc.streams stream_id with
    | some s =>
      if (s.consume_window bytes).2 then
        ({ fc with connection_window := fc.connection_window - bytes,
                   streams := modifyStream fc.streams stream_id
                     (fun t => (t.consume_window bytes).1) }, true)
      else
        (fc, false)
    | none => (fc, false)

/-- `FlowController::update_window` (src/http2_advanced.rs lines 176-182):
stream id 0 adds (saturating) to the connection window, any other id adds
to that stream's window when the stream exists, and does nothing when it
does not. -/
def FlowController.update_window (fc : FlowController) (stream_id increment : Nat) :
    FlowController :=
  if stream_id = 0 then
    { fc with connection_window := satAdd32 fc.connection_window increment }
  else
    { fc with streams := modifyStream fc.streams stream_id (fun s => s.add_window increment) }

/-- The window of stream `k` as the observer sees it. -/
def FlowController.streamWindow (fc : FlowController) (k : Nat) : Option Nat :=
  (lookupStream fc.streams k).map (fun s => s.window_size)

/-- The 4-byte window-update increment with its high bit masked
(`u32::from_be_bytes(..) & 0x7FFFFFFF`, src/http2.rs lines 422-427). -/
def wuIncrement (p0 p1 p2 p3 : Nat) : Nat :=
  (p0 * 16777216 + p1 * 65536 + p2 * 256 + p3) % 2 ^ 31

/-- `Http2Handler::handle_window_update_frame` (src/http2.rs lines
420-433): when the payload has at least 4 bytes, read the masked 4-byte
increment and hand it to `FlowController::update_window` (via
`Http2Handler::update_window`, line 172); always answer `Ok(Vec::new())`
— no response frame is built on any path.  The handler state beyond the
flow controller is untouched. -/
def handle_window_update_frame (fc : FlowController) (f : Http2Frame) :
    Except String (FlowController × List Nat) :=
  match f.payload with
  | p0 :: p1 :: p2 :: p3 :: _ =>
    .ok (fc.update_window f.stream_id (wuIncrement p0 p1 p2 p3), [])
  | _ => .ok (fc, [])

/-- `Http2Handler::build_goaway_frame` (src/http2.rs lines 450-463). -/
def build_goaway_frame (last_stream_id error_code : Nat) : List Nat :=
  Http2Frame.serialize
    ⟨8, 7, 0, 0, u32bytes last_stream_id ++ u32bytes error_code⟩

/-- A concrete flow-controller state for the window-update claims: the
initial iOS-Safari connection window with one open stream (id 1). -/
def fcWU : FlowController :=
  ⟨1048576, [(1, StreamState.new 1 1048576)], []⟩

/-- A WINDOW_UPDATE frame (type 8) on stream 1 with increment 0. -/
def wuZeroStream1 : Http2Frame := ⟨4, 8, 0, 1, [0, 0, 0, 0]⟩

/-- A WINDOW_UPDATE frame (type 8) on the connection (stream 0) with
increment 0. -/
def wuZeroConn : Http2Frame := ⟨4, 8, 0, 0, [0, 0, 0, 0]⟩

/-! ## Challenge / redirect tracker (src/challenge.rs)

Wall-clock timestamps (`SystemTime::now`) are passed in as an explicit
`now : Nat` parameter; the cookie maps play no role in the redirect
claims but are carried for faithfulness. -/

/-- `MAX_REDIRECTS` (src/challenge.rs). -/
def MAX_REDIRECTS : Nat := 10

/-- `RedirectEntry` (src/challenge.rs). -/
structure RedirectEntry where
  from_url : String
  to_url : String
  status_code : Nat
  timestamp : Nat
  deriving Repr, DecidableEq

/-- `RedirectChain` (src/challenge.rs). -/
structure RedirectChain where
  original_url : String
  redirects : List RedirectEntry
  cookies : List (String × String)
  timestamp : Nat
  deriving Repr, DecidableEq

/-- `RedirectChain::new`. -/
def RedirectChain.new (original_url : String) (now : Nat) : RedirectChain :=
  ⟨original_url, [], [], now⟩

/-- `RedirectChain::add_redirect` (src/challenge.rs lines 52-64): push the
entry at the back, unconditionally. -/
def RedirectChain.add_redirect (c : RedirectChain) (from_url to_url : String)
    (status_code now : Nat) : RedirectChain :=
  { c with redirects := c.redirects ++ [⟨from_url, to_url, status_code, now⟩] }

/-- `RedirectChain::redirect_count`. -/
def RedirectChain.redirect_count (c : RedirectChain) : Nat :=
  c.redirects.length

/-- The scan of `RedirectChain::has_loop` (src/challenge.rs lines 90-101):
walk the `to_url` projection left to right with a seen-set; report `true`
as soon as a url is already in the set. -/
def hasLoopAux (seen : List String) : List String → Bool
  | [] => false
  | u :: rest => if u ∈ seen then true else hasLoopAux (u :: seen) rest

/-- `RedirectChain::has_loop`: some `to_url` occurs twice. -/
def RedirectChain.has_loop (c : RedirectChain) : Bool :=
  hasLoopAux [] (c.redirects.map (fun r => r.to_url))

/-- `ChallengeState` (src/challenge.rs). -/
structure ChallengeState where
  url : String
  timestamp : Nat
  cookies : List String
  redirects : Nat
  deriving Repr, DecidableEq

/-- `ChallengeHandler` (src/challenge.rs): both `HashMap`s as association
lists. -/
structure ChallengeHandler where
  pending_challenges : List (String × ChallengeState)
  redirect_chains : List (String × RedirectChain)
  deriving Repr, DecidableEq

/-- `ChallengeHandler::new`. -/
def ChallengeHandler.new : ChallengeHandler := ⟨[], []⟩

/-- `ChallengeHandler::start_redirect_chain` (src/challenge.rs lines
148-151). -/
def ChallengeHandler.start_redirect_chain (h : ChallengeHandler)
    (original_url : String) (now : Nat) : ChallengeHandler :=
  { h with redirect_chains :=
      ainsert h.redirect_chains original_url (RedirectChain.new original_url now) }

/-- `ChallengeHandler::add_redirect` (src/challenge.rs lines 153-169).
The Rust method mutates `&mut self` and returns `Result<(), String>`; the
model returns the new handler together with the result.  Note the order
of operations: the entry is pushed through `get_mut` *before* the
`has_loop` test, so on `"Redirect loop detected"` the pushed entry stays
in the chain. -/
def ChallengeHandler.add_redirect (h : ChallengeHandler)
    (original_url from_url to_url : String) (status_code now : Nat) :
    ChallengeHandler × Except String Unit :=
  match alookup h.redirect_chains original_url with
  | none => (h, .error "No redirect chain found for URL")
  | some chain =>
    if MAX_REDIRECTS ≤ chain.redirect_count then
      (h, .error ("Too many redirects: " ++ toString chain.redirect_count))
    else
      let push : RedirectChain → RedirectChain :=
        fun c => c.add_redirect from_url to_url status_code now
      let h' := { h with redirect_chains := amodify h.redirect_chains original_url push }
      if (push chain).has_loop then
        (h', .error "Redirect loop detected")
      else
        (h', .ok ())

/-- The handler state after `ChallengeHandler::add_redirect` has pushed
its entry through `get_mut` (the state on which both the loop error and
the success return). -/
def pushedHandler (h : ChallengeHandler) (orig fr t : String)
    (st now : Nat) : ChallengeHandler :=
  { h with redirect_chains :=
      amodify h.redirect_chains orig (fun c => c.add_redirect fr t st now) }

/-- Every chain of the handler holds at most `MAX_REDIRECTS` entries. -/
def boundedChains (h : ChallengeHandler) : Prop :=
  ∀ k c, alookup h.redirect_chains k = some c →
    c.redirect_count ≤ MAX_REDIRECTS

/-- The handler after starting a chain at `"u"` and adding redirects to
each of the given targets in turn (all from `"u"`, status 301, time 0) —
the concrete scenario of claims C6 and C7. -/
def chainScenario (tos : List String) : ChallengeHandler :=
  tos.foldl (fun h t => (h.add_redirect "u" "u" t 301 0).1)
    (ChallengeHandler.new.start_redirect_chain "u" 0)

/-- Target lists `t1 … tn` for the scenario. -/
def tosUpTo (n : Nat) : List String :=
  (List.range n).map (fun i => "t" ++ toString (i + 1))

/-- Claim C6's concrete scenario, first step: a chain started at
`https://a/` that has seen `Location: https://b/`. -/
def chainAB : ChallengeHandler :=
  ((ChallengeHandler.new.start_redirect_chain "https://a/" 0).add_redirect
    "https://a/" "https://a/" "https://b/" 302 0).1

/-! ## Timing jitter engine (src/timing.rs, `TimingEngine`)

`Duration`s are whole microseconds (`Nat`): the engine builds its values
with `Duration::from_micros` and compares/sorts them, so microseconds
lose nothing.  The sampled `f64` jitter factor is idealised as a rational
`X`; the only float operations used (`*`, `+`, `max 0.0`, truncation
`as u64`) are exact on the small constants the theorems touch. -/

/-- `TimingEngine::get_natural_delay` (src/timing.rs lines 51-61): an
empty history gives `Duration::from_micros(100)` (the commented default
of 100 μs); otherwise the upper median `sorted[len/2]` of the sorted
history. -/
def get_natural_delay (hist : List Nat) : Nat :=
  if hist.isEmpty then 100
  else
    let sorted := hist.mergeSort (· ≤ ·)
    sorted.getD (sorted.length / 2) 0

/-- `TimingEngine::get_delay_with_jitter` (src/timing.rs lines 64-72):
`base · (1 + X)` floored at `0.0` (`.max(0.0)`) and truncated to whole
microseconds (`as u64`).  No other clamp is applied. -/
def get_delay_with_jitter (base : Nat) (jitter : ℚ) : Nat :=
  (⌊max ((base : ℚ) * (1 + jitter)) 0⌋).toNat

/-! ## TLS ClientHello codec (src/tls.rs)

`TlsClientHello::parse` indexes and slices the input without bounds
checks beyond the three explicit `if`s, so a malformed input makes the
Rust code panic; the model returns the distinguished `PErr.panic` on
exactly the accesses that would panic (`Vec` indexing/slicing out of
bounds), and `PErr.msg` for the `anyhow` errors the code returns. -/

inductive PErr where
  | msg (s : String)
  | panic
  deriving Repr, DecidableEq

/-- `data[i]` with Rust panic semantics. -/
def idx (l : List Nat) (i : Nat) : Except PErr Nat :=
  match l.get? i with
  | some v => .ok v
  | none => .error .panic

/-- `&l[a..b]` with Rust panic semantics. -/
def slice (l : List Nat) (a b : Nat) : Except PErr (List Nat) :=
  if a ≤ b ∧ b ≤ l.length then .ok ((l.drop a).take (b - a))
  else .error .panic

/-- `TlsExtension` (src/tls.rs). -/
structure TlsExtension where
  extension_type : Nat
  data : List Nat
  deriving Repr, DecidableEq

/-- `TlsClientHello` (src/tls.rs): the parsed logical structure. -/
structure TlsClientHello where
  version : Nat × Nat
  random : List Nat
  session_id : List Nat
  cipher_suites : List Nat
  compression_methods : List Nat
  extensions : List TlsExtension
  deriving Repr, DecidableEq

/-- The cipher-suite loop of `TlsClientHello::parse` (src/tls.rs lines
138-145): `for i in (0..n).step_by(2)` reading the big-endian pair at
`off + i` — for odd `n` the last iteration reads one byte past the
declared cipher block, exactly as the Rust does.  The third argument is
the remaining byte count `n - i`, making the recursion structural (each
iteration consumes two). -/
def readCipherSuites (hd : List Nat) (off : Nat) :
    Nat → Except PErr (List Nat)
  | 0 => pure []
  | 1 => do
    let b0 ← idx hd off
    let b1 ← idx hd (off + 1)
    pure [u16be b0 b1]
  | r + 2 => do
    let b0 ← idx hd off
    let b1 ← idx hd (off + 1)
    let rest ← readCipherSuites hd (off + 2) r
    pure (u16be b0 b1 :: rest)

/-- The extension loop of `TlsClientHello::parse` (src/tls.rs lines
161-182): read `(type, len, data)` records while `offset <
extensions_end`.  The fuel argument only makes the recursion structural:
each iteration advances `off` by at least 4, so any fuel of at least
`endo - off` (the caller passes exactly that) never runs out before the
loop condition fails. -/
def readExtensionsFuel (hd : List Nat) :
    Nat → Nat → Nat → Except PErr (List TlsExtension)
  | 0, _, _ => pure []
  | fuel + 1, off, endo =>
    if off < endo then do
      let t0 ← idx hd off
      let t1 ← idx hd (off + 1)
      let l0 ← idx hd (off + 2)
      let l1 ← idx hd (off + 3)
      let elen := u16be l0 l1
      let edata ← slice hd (off + 4) (off + 4 + elen)
      let rest ← readExtensionsFuel hd fuel (off + 4 + elen) endo
      pure (⟨u16be t0 t1, edata⟩ :: rest)
    else
      pure []

/-- The extension loop entered at `off`, running to `endo`. -/
def readExtensions (hd : List Nat) (off endo : Nat) :
    Except PErr (List TlsExtension) :=
  readExtensionsFuel hd (endo - off) off endo

/-- `TlsClientHello::parse` (src/tls.rs lines 98-193), step for step:
the three guarded `anyhow` errors, then unchecked indexing into
`handshake_data = &data[5..]` (out-of-bounds accesses panic). -/
def TlsClientHello.parse (data : List Nat) : Except PErr TlsClientHello := do
  if data.length < 5 then
    throw (.msg "Data too short for TLS record")
  if (← idx data 0) ≠ 0x16 then
    throw (.msg "Not a TLS handshake")
  let record_length := u16be (← idx data 3) (← idx data 4)
  if data.length < 5 + record_length then
    throw (.msg "Incomplete TLS record")
  let hd := data.drop 5
  if (← idx hd 0) ≠ 0x01 then
    throw (.msg "Not a ClientHello")
  let v0 ← idx hd 4
  let v1 ← idx hd 5
  let random ← slice hd 6 38
  let session_id_len ← idx hd 38
  let session_id ← slice hd 39 (39 + session_id_len)
  let off1 := 39 + session_id_len
  let cipher_suites_len := u16be (← idx hd off1) (← idx hd (off1 + 1))
  let off2 := off1 + 2
  let cipher_suites ← readCipherSuites hd off2 cipher_suites_len
  let off3 := off2 + cipher_suites_len
  let compression_len ← idx hd off3
  let compression_methods ← slice hd (off3 + 1) (off3 + 1 + compression_len)
  let off4 := off3 + 1 + compression_len
  let extensions ←
    if off4 < hd.length then do
      let extensions_len := u16be (← idx hd off4) (← idx hd (off4 + 1))
      readExtensions hd (off4 + 2) (off4 + 2 + extensions_len)
    else
      pure []
  pure ⟨(v0, v1), random, session_id, cipher_suites, compression_methods, extensions⟩

/-- `get_ios_safari_cipher_suites` (src/tls.rs lines 449-469): the fixed
17-suite iOS Safari list. -/
def get_ios_safari_cipher_suites : List Nat :=
  [0x1301, 0x1302, 0x1303, 0xc02c, 0xc02b, 0xcca9, 0xcca8, 0xc030, 0xc02f,
   0xc024, 0xc023, 0xc028, 0xc027, 0xc00a, 0xc009, 0xc014, 0xc013]

/-- `get_grease_values` (src/tls.rs). -/
def get_grease_values : List Nat :=
  [0x0a0a, 0x1a1a, 0x2a2a, 0x3a3a, 0x4a4a, 0x5a5a, 0x6a6a, 0x7a7a,
   0x8a8a, 0x9a9a, 0xaaaa, 0xbaba, 0xcaca, 0xdada, 0xeaea, 0xfafa]

/-- `TlsClientHello::find_extension_data`. -/
def TlsClientHello.find_extension_data (h : TlsClientHello) (t : Nat) :
    Option (List Nat) :=
  (h.extensions.find? (fun e => e.extension_type = t)).map (fun e => e.data)

/-- `TlsClientHello::serialize_extensions` (src/tls.rs lines 366-376):
type (2 bytes), length (2 bytes, truncated to u16), data. -/
def serialize_extensions : List TlsExtension → List Nat
  | [] => []
  | e :: rest =>
    u16bytes e.extension_type ++ u16bytes e.data.length ++ e.data
      ++ serialize_extensions rest

/-- `TlsClientHello::build_ios_extensions` (src/tls.rs lines 241-357).
The two `rand::rng()` draws are parameters: `greaseIdx` is the sampled
index into `get_grease_values` (in range by construction in the Rust),
`keyRandFn` the stream of 32 sampled key-share bytes.  `ticket` stands
for `ticket_cache.and_then(|c| c.get(domain))`: the extension-35 payload
is the cached ticket when the cache holds an unexpired one for the
domain, else empty — both `None` arms of the Rust push `vec![]`. -/
def build_ios_extensions (h : TlsClientHello) (ticket : Option (List Nat))
    (greaseIdx : Nat) (keyRandFn : Nat → Nat) : List TlsExtension :=
  [⟨get_grease_values.getD greaseIdx 0, []⟩,
   ⟨0, (h.find_extension_data 0).getD []⟩,
   ⟨23, []⟩,
   ⟨65281, [0x00]⟩,
   ⟨10, [0x00, 0x0a, 0x00, 0x1d, 0x00, 0x17, 0x00, 0x18, 0x00, 0x19]⟩,
   ⟨11, [0x01, 0x00]⟩,
   ⟨35, ticket.getD []⟩,
   ⟨16, (h.find_extension_data 16).getD
      [0x00, 0x0c, 0x02, 0x68, 0x32, 0x08, 0x68, 0x74, 0x74, 0x70, 0x2f,
       0x31, 0x2e, 0x31]⟩,
   ⟨5, [0x01, 0x00, 0x00, 0x00, 0x00]⟩,
   ⟨13, [0x00, 0x14, 0x04, 0x03, 0x08, 0x04, 0x04, 0x01, 0x05, 0x03, 0x08,
      0x05, 0x05, 0x01, 0x08, 0x06, 0x06, 0x01, 0x02, 0x01]⟩,
   ⟨51, [0x00, 0x1d, 0x00, 0x20] ++ (List.range 32).map keyRandFn⟩,
   ⟨43, [0x03, 0x04, 0x03, 0x03]⟩,
   ⟨27, [0x02, 0x00, 0x02]⟩,
   ⟨21, [0x00]⟩]

/-- `put_u16` for each cipher of a list. -/
def ciphersBytes : List Nat → List Nat
  | [] => []
  | c :: rest => u16bytes c ++ ciphersBytes rest

/-- `TlsClientHello::to_ios_safari` (src/tls.rs lines 195-239).  The 32
fresh random bytes drawn from `rand::rng()` are `randFn 0 … randFn 31`;
the session id written is always the single length byte `0`; the cipher
block is always the fixed iOS list; the Rust `Result` never errs, so the
`Ok` wrapper is dropped. -/
def TlsClientHello.to_ios_safari (h : TlsClientHello)
    (ticket : Option (List Nat)) (randFn : Nat → Nat) (greaseIdx : Nat)
    (keyRandFn : Nat → Nat) : List Nat :=
  let extensions_bytes :=
    serialize_extensions (build_ios_extensions h ticket greaseIdx keyRandFn)
  let client_hello :=
    [0x03, 0x03] ++ (List.range 32).map randFn ++ [0]
      ++ u16bytes (get_ios_safari_cipher_suites.length * 2)
      ++ ciphersBytes get_ios_safari_cipher_suites
      ++ [1, 0]
      ++ u16bytes extensions_bytes.length ++ extensions_bytes
  let handshake := [0x01] ++ u24bytes client_hello.length ++ client_hello
  [0x16, 0x03, 0x03] ++ u16bytes handshake.length ++ handshake

/-- What claim C1 asserts of a synthesized hello `out` for the original
hello `h`: the 32 random bytes at offsets 11-42, the session-id length
byte at offset 43, and the session id right after it are `h`'s. -/
def preservesRandomAndSessionId (h : TlsClientHello) (out : List Nat) : Prop :=
  (out.drop 11).take 32 = h.random ∧
  out.getD 43 0 = h.session_id.length ∧
  (out.drop 44).take h.session_id.length = h.session_id

/-- The cipher-suite list a synthesized hello carries on the wire: the
u16 count at offsets 44-45 (right after the empty session id), decoded
pairwise. -/
def decodePairs : List Nat → List Nat
  | b0 :: b1 :: rest => u16be b0 b1 :: decodePairs rest
  | _ => []

def wireCipherSuites (out : List Nat) : List Nat :=
  decodePairs ((out.drop 46).take (u16be (out.getD 44 0) (out.getD 45 0)))

/-- The 43-byte "minimal ClientHello" of the spec's boundary test:
record header (length 38), handshake header (type 1, length 34), legacy
version, 32-byte random — and nothing after. -/
def minimalClientHello43 : List Nat :=
  [0x16, 0x03, 0x03, 0x00, 0x26, 0x01, 0x00, 0x00, 0x22, 0x03, 0x03]
    ++ List.replicate 32 0

/-- A 51-byte well-formed ClientHello: random of 32 × `0x11`, session id
`[0xAA]`, cipher list `[0xC02B]`, one null compression method, no
extensions. -/
def chBytesC1 : List Nat :=
  [0x16, 0x03, 0x03, 0x00, 0x2E, 0x01, 0x00, 0x00, 0x2A, 0x03, 0x03]
    ++ List.replicate 32 0x11
    ++ [0x01, 0xAA, 0x00, 0x02, 0xC0, 0x2B, 0x01, 0x00]

/-- The parse of `chBytesC1`. -/
def chParsedC1 : TlsClientHello :=
  ⟨(3, 3), List.replicate 32 0x11, [0xAA], [0xC02B], [0], []⟩

/-! ## HTTP/1 request rewrite (src/proxy.rs, `rewrite_http_request`)

The request is a `String` (`from_utf8_lossy`), modelled as `List Char`;
the requests of interest are ASCII, so `str::to_lowercase` and
`char::is_whitespace` are modelled by their ASCII restrictions. -/

/-- `str::split("\r\n\r\n")`: leftmost-first, non-overlapping; the
accumulator carries the current part reversed. -/
def splitBlankAux : List Char → List Char → List (List Char)
  | '\r' :: '\n' :: '\r' :: '\n' :: rest, acc => acc.reverse :: splitBlankAux rest []
  | c :: rest, acc => splitBlankAux rest (c :: acc)
  | [], acc => [acc.reverse]

def splitBlank (l : List Char) : List (List Char) := splitBlankAux l []

/-- Whether `"\r\n\r\n"` occurs in the list (the condition under which
`splitBlankAux` emits more than one part). -/
def hasBlankSep : List Char → Bool
  | '\r' :: '\n' :: '\r' :: '\n' :: _ => true
  | _ :: rest => hasBlankSep rest
  | [] => false

/-- `str::split("\r\n")`. -/
def splitCRLFAux : List Char → List Char → List (List Char)
  | '\r' :: '\n' :: rest, acc => acc.reverse :: splitCRLFAux rest []
  | c :: rest, acc => splitCRLFAux rest (c :: acc)
  | [], acc => [acc.reverse]

def splitCRLF (l : List Char) : List (List Char) := splitCRLFAux l []

/-- ASCII whitespace (the requests at hand contain only spaces). -/
def isWs (c : Char) : Bool := c = ' ' ∨ c = '\t' ∨ c = '\n' ∨ c = '\r'

/-- `str::split_whitespace`: maximal non-empty runs between whitespace. -/
def splitWsAux : List Char → List Char → List (List Char)
  | [], acc => if acc.isEmpty then [] else [acc.reverse]
  | c :: rest, acc =>
    if isWs c then
      if acc.isEmpty then splitWsAux rest []
      else acc.reverse :: splitWsAux rest []
    else
      splitWsAux rest (c :: acc)

def splitWs (l : List Char) : List (List Char) := splitWsAux l []

/-- `str::to_lowercase`, restricted to ASCII. -/
def asciiLower (c : Char) : Char :=
  if 'A' ≤ c ∧ c ≤ 'Z' then Char.ofNat (c.toNat + 32) else c

/-- `Vec::join("\r\n")`. -/
def joinCRLF : List (List Char) → List Char
  | [] => []
  | [l] => l
  | l :: rest => l ++ '\r' :: '\n' :: joinCRLF rest

/-- `ProxyHandler::rewrite_http_request` (src/proxy.rs lines 322-370):
split at the first blank line (`"\r\n\r\n"`), keep `parts[1]` as the
body (any later parts are dropped); split the head into lines; when the
request line has at least two whitespace-separated fields, turn an
absolute `http://…` URL into its path (`"/"` when no slash follows the
host), keep every later line that is non-empty and does not start
(lowercased) with `proxy-connection:`, and reassemble with CRLFs, the
blank line, and the body (omitted when empty); otherwise return the
input unchanged. -/
def rewrite_http_request (request : List Char) : List Char :=
  let parts := splitBlank request
  let headers_part := parts.headD []
  let body := if 1 < parts.length then parts.getD 1 [] else []
  let lines := splitCRLF headers_part
  if lines.isEmpty then request
  else
    let first_line := lines.headD []
    let fparts := splitWs first_line
    if 2 ≤ fparts.length then
      let method := fparts.getD 0 []
      let url := fparts.getD 1 []
      let version := if 3 ≤ fparts.length then fparts.getD 2 [] else "HTTP/1.1".toList
      let path :=
        if "http://".toList.isPrefixOf url then
          match (url.drop 7).findIdx? (fun c => c = '/') with
          | some i => url.drop (7 + i)
          | none => "/".toList
        else url
      let new_first_line := method ++ ' ' :: path ++ ' ' :: version
      let kept := (lines.drop 1).filter (fun l =>
        !l.isEmpty && !("proxy-connection:".toList.isPrefixOf (l.map asciiLower)))
      let joined := joinCRLF (new_first_line :: kept)
      if body.isEmpty then joined ++ "\r\n\r\n".toList
      else joined ++ "\r\n\r\n".toList ++ body
    else request

/-- The request of claim C8's concrete scenario. -/
def reqC8 : List Char :=
  ("GET http://httpbin.org/get HTTP/1.1\r\nHost: httpbin.org\r\n"
    ++ "Proxy-Connection: keep-alive\r\n\r\n").toList

/-- The head part of `reqC8` (before the blank line). -/
def hdrC8 : List Char :=
  ("GET http://httpbin.org/get HTTP/1.1\r\nHost: httpbin.org\r\n"
    ++ "Proxy-Connection: keep-alive").toList

/-- The rewritten request the claim expects for `reqC8`. -/
def outC8 : List Char := "GET /get HTTP/1.1\r\nHost: httpbin.org\r\n\r\n".toList

end TProxy

namespace TProxy

/-! Association-list lemmas shared by the flow-control and challenge
claims. -/

theorem alookup_amodify_self {κ α : Type} [DecidableEq κ]
    (l : List (κ × α)) (k : κ) (f : α → α) :
    alookup (amodify l k f) k = (alookup l k).map f := by
  induction l with
  | nil => rfl
  | cons e t ih =>
    by_cases h : e.1 = k
    · simp [alookup, amodify, List.find?, h]
    · simpa [alookup, amodify, List.find?, h] using ih

theorem alookup_amodify_other {κ α : Type} [DecidableEq κ]
    (l : List (κ × α)) (k k' : κ) (f : α → α) (hk : k' ≠ k) :
    alookup (amodify l k f) k' = alookup l k' := by
  have hkk : ¬ (k = k') := fun hh => hk hh.symm
  induction l with
  | nil => rfl
  | cons e t ih =>
    by_cases h : e.1 = k
    · simp [alookup, amodify, List.find?, h, hkk]
      simpa [alookup, amodify] using ih
    · by_cases h2 : e.1 = k'
      · simp [alookup, amodify, List.find?, h, h2, hk]
      · simpa [alookup, amodify, List.find?, h, h2] using ih

theorem lookupStream_modifyStream_self (l : List (Nat × StreamState)) (k : Nat)
    (f : StreamState → StreamState) :
    lookupStream (modifyStream l k f) k = (lookupStream l k).map f :=
  alookup_amodify_self l k f

theorem lookupStream_modifyStream_other (l : List (Nat × StreamState)) (k k' : Nat)
    (f : StreamState → StreamState) (hk : k' ≠ k) :
    lookupStream (modifyStream l k f) k' = lookupStream l k' :=
  alookup_amodify_other l k k' f hk

theorem alookup_ainsert_self {κ α : Type} [DecidableEq κ]
    (l : List (κ × α)) (k : κ) (v : α) :
    alookup (ainsert l k v) k = some v := by
  unfold ainsert
  by_cases h : (alookup l k).isSome
  · rw [if_pos h, alookup_amodify_self]
    obtain ⟨a, ha⟩ := Option.isSome_iff_exists.mp h
    rw [ha]
    rfl
  · rw [if_neg h]
    simp [alookup, List.find?]

theorem alookup_ainsert_other {κ α : Type} [DecidableEq κ]
    (l : List (κ × α)) (k k' : κ) (v : α) (hk : k' ≠ k) :
    alookup (ainsert l k v) k' = alookup l k' := by
  unfold ainsert
  by_cases h : (alookup l k).isSome
  · rw [if_pos h, alookup_amodify_other l k k' _ hk]
  · rw [if_neg h]
    simp [alookup, List.find?, decide_eq_false (fun hh : k = k' => hk hh.symm)]

theorem hasLoopAux_append (seen l : List String) (x : String) :
    hasLoopAux seen (l ++ [x]) =
      (hasLoopAux seen l || decide (x ∈ seen) || decide (x ∈ l)) := by
  induction l generalizing seen with
  | nil => simp [hasLoopAux]
  | cons u rest ih =>
    by_cases hu : u ∈ seen
    · simp [hasLoopAux, hu]
    · rw [List.cons_append]
      show hasLoopAux seen (u :: (rest ++ [x])) = _
      rw [show hasLoopAux seen (u :: (rest ++ [x]))
            = hasLoopAux (u :: seen) (rest ++ [x]) by simp [hasLoopAux, hu],
          show hasLoopAux seen (u :: rest) = hasLoopAux (u :: seen) rest by
            simp [hasLoopAux, hu],
          ih (u :: seen)]
      apply Bool.eq_iff_iff.mpr
      simp only [Bool.or_eq_true, decide_eq_true_eq, List.mem_cons]
      tauto

/-- The loop test on a chain extended by one entry, when the chain was
loop-free so far: a loop appears exactly when the new `to_url` is already
in the `to` projection. -/
theorem has_loop_push (c : RedirectChain) (fr t : String) (st now : Nat)
    (hnl : c.has_loop = false) :
    (c.add_redirect fr t st now).has_loop
      = decide (t ∈ c.redirects.map (fun r => r.to_url)) := by
  unfold RedirectChain.has_loop at *
  simp only [RedirectChain.add_redirect, List.map_append, List.map_cons,
    List.map_nil]
  rw [hasLoopAux_append, hnl]
  simp

end TProxy


namespace TProxy

/-- C4: round-trip of the HTTP/2 frame codec.  For a frame whose length
field is at most `MAX_FRAME_SIZE`, equals the payload size, whose stream
id fits in 31 bits and whose type and flags are bytes, parsing the
serialization returns exactly the original frame. -/
theorem http2_frame_roundtrip (f : Http2Frame)
    (hlen : f.length ≤ MAX_FRAME_SIZE)
    (hpay : f.length = f.payload.length)
    (hsid : f.stream_id < 2 ^ 31)
    (hty : f.frame_type < 256) (hfl : f.flags < 256) :
    Http2Frame.parse f.serialize = .ok f := by
  obtain ⟨len, ty, fl, sid, pay⟩ := f
  simp only [MAX_FRAME_SIZE] at hlen
  simp only at hpay hsid hty hfl
  subst hpay
  simp only [Http2Frame.serialize, u24bytes, u32bytes, List.cons_append, List.nil_append,
    List.append_assoc]
  simp only [Http2Frame.parse, List.take_length, le_refl, if_pos]
  have h1 : pay.length / 65536 % 256 * 65536 + pay.length / 256 % 256 * 256
      + pay.length % 256 = pay.length := by omega
  have h2 : (sid / 16777216 % 256 * 16777216 + sid / 65536 % 256 * 65536
      + sid / 256 % 256 * 256 + sid % 256) % 2 ^ 31 = sid := by
    have : 2 ^ 31 = 2147483648 := by norm_num
    rw [this]
    omega
  have h3 : ty % 256 = ty := Nat.mod_eq_of_lt hty
  have h4 : fl % 256 = fl := Nat.mod_eq_of_lt hfl
  simp only [h1, h2, h3, h4, List.take_length, le_refl, if_pos]

/-- Witness for C4 at the SETTINGS test frame of src/http2.rs
(`[0,0,4, 4, 0, 0,0,0,0, 1,2,3,4]`). -/
theorem http2_frame_roundtrip_witness :
    Http2Frame.parse (Http2Frame.serialize ⟨4, 4, 0, 0, [1, 2, 3, 4]⟩) =
      .ok ⟨4, 4, 0, 0, [1, 2, 3, 4]⟩ :=
  http2_frame_roundtrip ⟨4, 4, 0, 0, [1, 2, 3, 4]⟩ (by decide) (by decide)
    (by norm_num) (by decide) (by decide)

/-- C10: `FlowController::consume_window` succeeds exactly when the
stream exists and both its window and the connection window cover the
requested bytes; on success both windows drop by exactly that amount and
no other stream's window moves; on failure the whole controller state is
returned unchanged. -/
theorem flow_consume_window_spec (fc : FlowController) (sid n : Nat) :
    ((fc.consume_window sid n).2 = true ↔
      n ≤ fc.connection_window ∧
        ∃ s, lookupStream fc.streams sid = some s ∧ n ≤ s.window_size) ∧
    ((fc.consume_window sid n).2 = true →
      (fc.consume_window sid n).1.connection_window = fc.connection_window - n ∧
      (fc.consume_window sid n).1.streamWindow sid
        = (fc.streamWindow sid).map (fun w => w - n) ∧
      ∀ k, k ≠ sid →
        (fc.consume_window sid n).1.streamWindow k = fc.streamWindow k) ∧
    ((fc.consume_window sid n).2 = false → (fc.consume_window sid n).1 = fc) := by
  by_cases h1 : fc.connection_window < n
  · have hres : fc.consume_window sid n = (fc, false) := by
      simp [FlowController.consume_window, h1]
    rw [hres]
    refine ⟨⟨fun h => absurd h (by simp), fun h => absurd h.1 (by omega)⟩,
      fun h => absurd h (by simp), fun _ => rfl⟩
  · cases hl : lookupStream fc.streams sid with
    | none =>
      have hres : fc.consume_window sid n = (fc, false) := by
        simp [FlowController.consume_window, h1, hl]
      rw [hres]
      refine ⟨⟨fun h => absurd h (by simp), fun h => ?_⟩,
        fun h => absurd h (by simp), fun _ => rfl⟩
      obtain ⟨s, hs, -⟩ := h.2
      cases hs
    | some s =>
      by_cases hw : n ≤ s.window_size
      · have hcs : (s.consume_window n).2 = true := by
          simp [StreamState.consume_window, hw]
        have hres : fc.consume_window sid n =
            ({ fc with connection_window := fc.connection_window - n,
                       streams := modifyStream fc.streams sid
                         (fun t => (t.consume_window n).1) }, true) := by
          simp [FlowController.consume_window, h1, hl, hcs]
        rw [hres]
        refine ⟨⟨fun _ => ⟨by omega, s, rfl, hw⟩, fun _ => rfl⟩,
          fun _ => ⟨rfl, ?_, ?_⟩, fun h => absurd h (by simp)⟩
        · simp only [FlowController.streamWindow, lookupStream_modifyStream_self, hl]
          simp [StreamState.consume_window, hw]
        · intro k hk
          simp only [FlowController.streamWindow,
            lookupStream_modifyStream_other fc.streams sid k _ hk]
      · have hcs : (s.consume_window n).2 = false := by
          simp [StreamState.consume_window, hw]
        have hres : fc.consume_window sid n = (fc, false) := by
          simp [FlowController.consume_window, h1, hl, hcs]
        rw [hres]
        refine ⟨⟨fun h => absurd h (by simp), fun h => ?_⟩,
          fun h => absurd h (by simp), fun _ => rfl⟩
        obtain ⟨s', hs', hw'⟩ := h.2
        cases hs'
        exact absurd hw' hw

/-- C5, counterexample: a WINDOW_UPDATE with increment 0 on stream 1
produces no RST_STREAM (the response byte list is empty), and one on
stream 0 produces no GOAWAY (empty as well, and in particular not the
GOAWAY frame with PROTOCOL_ERROR = 1 the claim requires); the state is
simply unchanged. -/
theorem window_update_zero_emits_nothing :
    handle_window_update_frame fcWU wuZeroStream1 = .ok (fcWU, []) ∧
    handle_window_update_frame fcWU wuZeroConn = .ok (fcWU, []) ∧
    ([] : List Nat) ≠ build_goaway_frame 0 1 := by
  refine ⟨rfl, rfl, by decide⟩

/-- C5 as amended: for any WINDOW_UPDATE frame whose payload holds at
least 4 bytes, the handler adds the masked increment to the named window
— the connection window (saturating) for stream id 0, the stream's own
window when that stream exists — never errors, and emits no frame at all
(zero increments included: they are silent no-ops, with no RST_STREAM and
no GOAWAY). -/
theorem window_update_amended (fc : FlowController) (f : Http2Frame)
    (p0 p1 p2 p3 : Nat) (rest : List Nat)
    (hp : f.payload = p0 :: p1 :: p2 :: p3 :: rest) :
    handle_window_update_frame fc f =
      .ok (fc.update_window f.stream_id (wuIncrement p0 p1 p2 p3), []) ∧
    (f.stream_id = 0 →
      (fc.update_window f.stream_id (wuIncrement p0 p1 p2 p3)).connection_window
        = satAdd32 fc.connection_window (wuIncrement p0 p1 p2 p3) ∧
      ∀ k, (fc.update_window f.stream_id (wuIncrement p0 p1 p2 p3)).streamWindow k
        = fc.streamWindow k) ∧
    (f.stream_id ≠ 0 →
      (fc.update_window f.stream_id (wuIncrement p0 p1 p2 p3)).connection_window
        = fc.connection_window ∧
      (fc.update_window f.stream_id (wuIncrement p0 p1 p2 p3)).streamWindow f.stream_id
        = (fc.streamWindow f.stream_id).map
            (fun w => satAdd32 w (wuIncrement p0 p1 p2 p3)) ∧
      ∀ k, k ≠ f.stream_id →
        (fc.update_window f.stream_id (wuIncrement p0 p1 p2 p3)).streamWindow k
          = fc.streamWindow k) := by
  refine ⟨?_, ?_, ?_⟩
  · simp [handle_window_update_frame, hp]
  · intro h0
    rw [h0]
    constructor
    · simp [FlowController.update_window]
    · intro k
      simp [FlowController.update_window, FlowController.streamWindow]
  · intro h0
    refine ⟨?_, ?_, ?_⟩
    · simp [FlowController.update_window, h0]
    · simp [FlowController.update_window, h0, FlowController.streamWindow,
        lookupStream_modifyStream_self, StreamState.add_window]
      cases lookupStream fc.streams f.stream_id <;> simp [StreamState.add_window]
    · intro k hk
      simp [FlowController.update_window, h0, FlowController.streamWindow,
        lookupStream_modifyStream_other fc.streams f.stream_id k _ hk]

/-- Witness for C5's amended theorem: a concrete WINDOW_UPDATE with
increment 1 on stream 1. -/
theorem window_update_amended_witness :
    handle_window_update_frame fcWU ⟨4, 8, 0, 1, [0, 0, 0, 1]⟩ =
      .ok (fcWU.update_window 1 (wuIncrement 0 0 0 1), []) :=
  (window_update_amended fcWU ⟨4, 8, 0, 1, [0, 0, 0, 1]⟩ 0 0 0 1 [] rfl).1

/-- C6, counterexample.  On the chain `https://a/ → https://b/`: (i) the
spec's own instance — a redirect back to `https://a/` — is *accepted*
(`Ok`), because `has_loop` only inspects the `to` projection and the
chain's original URL never enters it; (ii) on a redirect that genuinely
repeats a `to` URL (`https://b/` again) the handler does return the
`Redirect loop detected` error, but the chain *is* extended: its `to`
projection becomes `[b, b]`, not the original `[b]`. -/
theorem redirect_loop_counterexample :
    (chainAB.add_redirect "https://a/" "https://b/" "https://a/" 302 0).2
      = .ok () ∧
    (chainAB.add_redirect "https://a/" "https://b/" "https://b/" 302 0).2
      = .error "Redirect loop detected" ∧
    (alookup (chainAB.add_redirect "https://a/" "https://b/" "https://b/"
        302 0).1.redirect_chains "https://a/").map
      (fun c => c.redirects.map (fun r => r.to_url))
      = some ["https://b/", "https://b/"] :=
  ⟨rfl, rfl, rfl⟩

/-- C6 as amended: on a chain that is loop-free and below the redirect
cap, `add_redirect` returns the `Redirect loop detected` error exactly
when the new `to` URL already occurs in the chain's `to` projection (the
chain's original URL itself does not count), and in *every* such call —
error or not — the entry has already been pushed: the stored chain is the
old chain extended by the new entry, never left unchanged. -/
theorem redirect_loop_amended (h : ChallengeHandler)
    (orig fr t : String) (st now : Nat) (chain : RedirectChain)
    (hc : alookup h.redirect_chains orig = some chain)
    (hn : chain.redirect_count < MAX_REDIRECTS)
    (hnl : chain.has_loop = false) :
    ((h.add_redirect orig fr t st now).2 = .error "Redirect loop detected" ↔
      t ∈ chain.redirects.map (fun r => r.to_url)) ∧
    ((h.add_redirect orig fr t st now).2 = .ok () ↔
      t ∉ chain.redirects.map (fun r => r.to_url)) ∧
    alookup (h.add_redirect orig fr t st now).1.redirect_chains orig =
      some (chain.add_redirect fr t st now) := by
  have hcap : ¬ MAX_REDIRECTS ≤ chain.redirect_count := by omega
  by_cases hdup : t ∈ chain.redirects.map (fun r => r.to_url)
  · have hres : h.add_redirect orig fr t st now =
        (pushedHandler h orig fr t st now, .error "Redirect loop detected") := by
      simp [ChallengeHandler.add_redirect, hc, hcap, has_loop_push _ _ _ _ _ hnl,
        hdup, pushedHandler]
    rw [hres]
    refine ⟨⟨fun _ => hdup, fun _ => rfl⟩, ⟨fun hh => absurd hh (by simp), ?_⟩, ?_⟩
    · intro hh; exact absurd hdup hh
    · simp [pushedHandler, alookup_amodify_self, hc]
  · have hres : h.add_redirect orig fr t st now =
        (pushedHandler h orig fr t st now, .ok ()) := by
      simp [ChallengeHandler.add_redirect, hc, hcap, has_loop_push _ _ _ _ _ hnl,
        hdup, pushedHandler]
    rw [hres]
    refine ⟨⟨fun hh => absurd hh (by simp), fun hh => absurd hh hdup⟩,
      ⟨fun _ => hdup, fun _ => rfl⟩, ?_⟩
    simp [pushedHandler, alookup_amodify_self, hc]

/-- Witness for C6's amended theorem: on the chain `https://a/ →
https://b/` (loop-free, one entry), redirecting back to `https://a/` is
accepted. -/
theorem redirect_loop_amended_witness :
    (chainAB.add_redirect "https://a/" "https://b/" "https://a/" 302 0).2
      = .ok () :=
  (redirect_loop_amended chainAB "https://a/" "https://b/" "https://a/" 302 0
    ⟨"https://a/", [⟨"https://a/", "https://b/", 302, 0⟩], [], 0⟩
    (by decide) (by decide) (by decide)).2.1.mpr (by decide)

/-- C7: no redirect chain ever exceeds `MAX_REDIRECTS = 10` entries —
the empty handler is bounded, `start_redirect_chain` and `add_redirect`
preserve the bound — and in the concrete scenario of ten distinct
targets the tenth `add_redirect` succeeds while the eleventh returns the
`Too many redirects` error and leaves the chain at exactly 10 entries. -/
theorem redirect_chain_bounded :
    boundedChains ChallengeHandler.new ∧
    (∀ h u now, boundedChains h → boundedChains (h.start_redirect_chain u now)) ∧
    (∀ h orig fr t st now, boundedChains h →
      boundedChains ((h.add_redirect orig fr t st now).1)) ∧
    ((chainScenario (tosUpTo 9)).add_redirect "u" "u" "t10" 301 0).2 = .ok () ∧
    ((chainScenario (tosUpTo 10)).add_redirect "u" "u" "t11" 301 0).2
      = .error "Too many redirects: 10" ∧
    (alookup ((chainScenario (tosUpTo 10)).add_redirect "u" "u" "t11"
        301 0).1.redirect_chains "u").map (fun c => c.redirect_count)
      = some 10 := by
  refine ⟨?_, ?_, ?_, rfl, rfl, rfl⟩
  · intro k c hkc
    cases hkc
  · intro h u now hb k c hkc
    by_cases hk : k = u
    · subst hk
      rw [ChallengeHandler.start_redirect_chain] at hkc
      simp only [alookup_ainsert_self] at hkc
      cases hkc
      simp [RedirectChain.new, RedirectChain.redirect_count, MAX_REDIRECTS]
    · rw [ChallengeHandler.start_redirect_chain] at hkc
      simp only [alookup_ainsert_other _ _ _ _ hk] at hkc
      exact hb k c hkc
  · intro h orig fr t st now hb k c hkc
    have key : (h.add_redirect orig fr t st now).1 = h ∨
        ∃ chain, alookup h.redirect_chains orig = some chain ∧
          ¬ MAX_REDIRECTS ≤ chain.redirect_count ∧
          (h.add_redirect orig fr t st now).1 = pushedHandler h orig fr t st now := by
      unfold ChallengeHandler.add_redirect
      cases hl : alookup h.redirect_chains orig with
      | none => exact .inl rfl
      | some chain =>
        by_cases hcap : MAX_REDIRECTS ≤ chain.redirect_count
        · exact .inl (by simp [hcap])
        · refine .inr ⟨chain, rfl, hcap, ?_⟩
          by_cases hloop : (chain.add_redirect fr t st now).has_loop
          · simp [hcap, hloop, pushedHandler]
          · simp [hcap, hloop, pushedHandler]
    rcases key with hkey | ⟨chain, hl, hcap, hkey⟩
    · rw [hkey] at hkc
      exact hb k c hkc
    · rw [hkey] at hkc
      simp only [pushedHandler] at hkc
      by_cases hk : k = orig
      · subst hk
        rw [alookup_amodify_self, hl] at hkc
        cases hkc
        have := hb k chain hl
        simp only [RedirectChain.redirect_count, RedirectChain.add_redirect,
          List.length_append, List.length_cons, List.length_nil] at *
        omega
      · rw [alookup_amodify_other _ _ _ _ hk] at hkc
        exact hb k c hkc

/-- C9, counterexample: with an empty history the base delay is 100 μs,
not the claimed 10 ms; and the jittered sleep is not clamped to
[1 ms, 5000 ms] — with jitter 0 the sleep stays at 100 μs (below the
claimed lower bound), and with a large positive jitter it exceeds
5000 ms. -/
theorem timing_clamp_counterexample :
    get_natural_delay [] ≠ 10000 ∧
    get_delay_with_jitter (get_natural_delay []) 0 < 1000 ∧
    5000000 < get_delay_with_jitter 100 100000 := by
  have h1 : get_natural_delay [] = 100 := rfl
  refine ⟨by rw [h1]; decide, ?_, ?_⟩
  · rw [h1]
    unfold get_delay_with_jitter
    norm_num
  · unfold get_delay_with_jitter
    norm_num

/-- C9 as amended: with an empty history the base delay is 100 μs
(`Duration::from_micros(100)`); the jittered sleep is `base · (1 + X)`
truncated to whole microseconds and floored at zero, with no clamp to
[1 ms, 5000 ms]: at `X = 0` the sleep equals the base exactly, however
small; a large `X` produces sleeps far above 5000 ms; and `X ≤ -1`
produces a zero sleep. -/
theorem timing_jitter_amended :
    get_natural_delay [] = 100 ∧
    (∀ b : Nat, get_delay_with_jitter b 0 = b) ∧
    get_delay_with_jitter 100 100000 = 10000100 ∧
    get_delay_with_jitter 10000 (-2) = 0 := by
  refine ⟨rfl, fun b => ?_, ?_, ?_⟩
  · unfold get_delay_with_jitter
    rw [add_zero, mul_one, max_eq_left (by positivity), Int.floor_natCast,
      Int.toNat_natCast]
  · unfold get_delay_with_jitter
    norm_num
    rfl
  · unfold get_delay_with_jitter
    norm_num

/-- C3: the claim is the intended contract (the spec's explicit failure
conditions), but the code has no such bounds checks: on the spec's own
43-byte minimal ClientHello the parse reads `handshake_data[38]` of a
38-byte slice and panics instead of succeeding, and even a 5-byte
truncated record (fewer than 43 bytes) panics on `handshake_data[0]`
instead of returning an error. -/
theorem parse_out_of_bounds_panics :
    TlsClientHello.parse minimalClientHello43 = .error .panic ∧
    TlsClientHello.parse [0x16, 0x03, 0x03, 0x00, 0x00] = .error .panic :=
  ⟨rfl, rfl⟩

/-- C1, counterexample: `chBytesC1` is parseable (random 32 × 0x11,
session id `[0xAA]`), yet its synthesized hello does not carry the
original random or session id: the session-id length byte at offset 43
is 0, not 1, and the 32 bytes at offset 11 are the fresh RNG bytes (all
0 here), not the original 0x11s. -/
theorem synth_preserve_counterexample :
    TlsClientHello.parse chBytesC1 = .ok chParsedC1 ∧
    ¬ preservesRandomAndSessionId chParsedC1
        (chParsedC1.to_ios_safari none (fun _ => 0) 0 (fun _ => 0)) :=
  ⟨rfl, fun hp => absurd hp.2.1 (by decide)⟩

/-- C1 as amended: for every original hello, ticket state and RNG draw,
the synthesized hello carries the 32 freshly drawn random bytes at the
random's position (offsets 11-42) and an empty session id (length byte 0
at offset 43) — the original's random and session id are discarded. -/
theorem synth_fresh_random_empty_sid (h : TlsClientHello)
    (ticket : Option (List Nat)) (randFn : Nat → Nat) (greaseIdx : Nat)
    (keyRandFn : Nat → Nat) :
    ((h.to_ios_safari ticket randFn greaseIdx keyRandFn).drop 11).take 32
      = (List.range 32).map randFn ∧
    (h.to_ios_safari ticket randFn greaseIdx keyRandFn).getD 43 0 = 0 := by
  constructor
  · unfold TlsClientHello.to_ios_safari
    simp only [u16bytes, u24bytes, List.cons_append, List.nil_append,
      List.append_assoc]
    simp only [List.drop_succ_cons, List.drop_zero]
    rw [List.take_left' (by simp)]
  · unfold TlsClientHello.to_ios_safari
    simp only [u16bytes, u24bytes, List.cons_append, List.nil_append,
      List.append_assoc]
    simp only [List.getD_cons_succ, List.getD_cons_zero]
    rw [List.getD_append_right _ _ _ _ (by simp)]
    simp

/-- C2, counterexample: for the parseable original with cipher list
`[0xC02B]`, the synthesized hello's wire cipher list is not
`[0x1301, 0x1302, 0x1303, 0xC02B]` — it is the full fixed 17-suite iOS
Safari list, whose fourth element is 0xC02C. -/
theorem synth_cipher_counterexample :
    TlsClientHello.parse chBytesC1 = .ok chParsedC1 ∧
    wireCipherSuites (chParsedC1.to_ios_safari none (fun _ => 0) 0 (fun _ => 0))
      ≠ [0x1301, 0x1302, 0x1303, 0xC02B] ∧
    wireCipherSuites (chParsedC1.to_ios_safari none (fun _ => 0) 0 (fun _ => 0))
      = get_ios_safari_cipher_suites :=
  ⟨rfl, by decide, rfl⟩

/-- C2 as amended: the synthesized hello's cipher list is always the
fixed 17-suite iOS Safari list `get_ios_safari_cipher_suites`,
independent of the original hello's cipher suites. -/
theorem synth_cipher_list_fixed (h : TlsClientHello)
    (ticket : Option (List Nat)) (randFn : Nat → Nat) (greaseIdx : Nat)
    (keyRandFn : Nat → Nat) :
    wireCipherSuites (h.to_ios_safari ticket randFn greaseIdx keyRandFn)
      = get_ios_safari_cipher_suites := by
  unfold wireCipherSuites
  have h44 : (h.to_ios_safari ticket randFn greaseIdx keyRandFn).getD 44 0 = 0 := by
    unfold TlsClientHello.to_ios_safari
    simp only [u16bytes, u24bytes, List.cons_append, List.nil_append,
      List.append_assoc]
    simp only [List.getD_cons_succ, List.getD_cons_zero]
    rw [List.getD_append_right _ _ _ _ (by simp)]
    simp [get_ios_safari_cipher_suites]
  have h45 : (h.to_ios_safari ticket randFn greaseIdx keyRandFn).getD 45 0 = 34 := by
    unfold TlsClientHello.to_ios_safari
    simp only [u16bytes, u24bytes, List.cons_append, List.nil_append,
      List.append_assoc]
    simp only [List.getD_cons_succ, List.getD_cons_zero]
    rw [List.getD_append_right _ _ _ _ (by simp)]
    simp [get_ios_safari_cipher_suites]
  have hdrop : (h.to_ios_safari ticket randFn greaseIdx keyRandFn).drop 46
      = ciphersBytes get_ios_safari_cipher_suites
        ++ ([1, 0] ++ u16bytes (serialize_extensions
              (build_ios_extensions h ticket greaseIdx keyRandFn)).length
          ++ serialize_extensions (build_ios_extensions h ticket greaseIdx keyRandFn)) := by
    unfold TlsClientHello.to_ios_safari
    simp only [u16bytes, u24bytes, List.cons_append, List.nil_append,
      List.append_assoc]
    simp only [List.drop_succ_cons, List.drop_zero]
    rw [show (35 : Nat) = ((List.range 32).map randFn).length + 3 by simp,
      List.drop_append]
    simp [get_ios_safari_cipher_suites, List.append_assoc]
  rw [h44, h45, hdrop]
  rw [show u16be 0 34 = 34 from rfl,
    List.take_left' (by decide : (ciphersBytes get_ios_safari_cipher_suites).length = 34)]
  decide

/-- A list without the blank separator splits into itself (prefixed by
the pending accumulator). -/
theorem splitBlankAux_no_sep (l acc : List Char) (h : hasBlankSep l = false) :
    splitBlankAux l acc = [acc.reverse ++ l] := by
  induction l, acc using splitBlankAux.induct with
  | case1 rest acc => simp [hasBlankSep] at h
  | case2 c rest acc hne ih =>
    rw [splitBlankAux.eq_2 _ _ _ hne,
      ih (by rw [← hasBlankSep.eq_2 _ _ hne]; exact h)]
    simp
  | case3 acc => simp [splitBlankAux]

/-- C8, counterexample: a request whose body itself contains a blank
line is not passed through whole — everything from the body's own
`\r\n\r\n` on is dropped, so the body is not preserved. -/
theorem rewrite_body_truncated :
    rewrite_http_request
        ("GET http://h/x HTTP/1.1\r\nHost: h\r\n\r\nA\r\n\r\nB").toList
      ≠ ("GET /x HTTP/1.1\r\nHost: h\r\n\r\nA\r\n\r\nB").toList ∧
    rewrite_http_request
        ("GET http://h/x HTTP/1.1\r\nHost: h\r\n\r\nA\r\n\r\nB").toList
      = ("GET /x HTTP/1.1\r\nHost: h\r\n\r\nA").toList :=
  ⟨by decide, rfl⟩

/-- C8 as amended: on the claim's input the rewrite yields exactly the
claimed output, and for every body free of blank-line separators the
rewrite of header-block-plus-body is the rewritten header block plus the
body verbatim (absolute-form request line to origin-form,
`Proxy-Connection` dropped, `Host` kept); only a body containing
`\r\n\r\n` is truncated at that separator. -/
theorem rewrite_http_request_spec :
    rewrite_http_request reqC8 = outC8 ∧
    ∀ body, hasBlankSep body = false →
      rewrite_http_request (reqC8 ++ body) = outC8 ++ body := by
  refine ⟨rfl, fun body hb => ?_⟩
  have hsplit : splitBlank (reqC8 ++ body) = [hdrC8, body] := by
    show splitBlankAux (
        'G' :: 'E' :: 'T' :: ' ' :: 'h' :: 't' :: 't' :: 'p' :: ':' :: '/' ::
        '/' :: 'h' :: 't' :: 't' :: 'p' :: 'b' :: 'i' :: 'n' :: '.' :: 'o' ::
        'r' :: 'g' :: '/' :: 'g' :: 'e' :: 't' :: ' ' :: 'H' :: 'T' :: 'T' ::
        'P' :: '/' :: '1' :: '.' :: '1' :: '\r' :: '\n' :: 'H' :: 'o' :: 's' ::
        't' :: ':' :: ' ' :: 'h' :: 't' :: 't' :: 'p' :: 'b' :: 'i' :: 'n' ::
        '.' :: 'o' :: 'r' :: 'g' :: '\r' :: '\n' :: 'P' :: 'r' :: 'o' :: 'x' ::
        'y' :: '-' :: 'C' :: 'o' :: 'n' :: 'n' :: 'e' :: 'c' :: 't' :: 'i' ::
        'o' :: 'n' :: ':' :: ' ' :: 'k' :: 'e' :: 'e' :: 'p' :: '-' :: 'a' ::
        'l' :: 'i' :: 'v' :: 'e' :: '\r' :: '\n' :: '\r' :: '\n' :: body) []
      = [hdrC8, body]
    simp only [splitBlankAux]
    rw [splitBlankAux_no_sep body [] hb]
    simp [hdrC8]
  have key : rewrite_http_request (reqC8 ++ body)
      = if body.isEmpty then outC8 else outC8 ++ body := by
    unfold rewrite_http_request
    rw [hsplit]
    rfl
  rw [key]
  by_cases hbe : body.isEmpty
  · rw [if_pos hbe, List.isEmpty_iff.mp hbe, List.append_nil]
  · rw [if_neg hbe]

end TProxy
